import Mathlib

/-!
# Verification of the 3D tumor-growth animation pipeline

A shallow embedding of the rendering/animation core of
`Tumor_Synthesis/visualization/3Dgif.py`, together with theorems settling
the specification's claims about it.

Modelling conventions:
* Python strings are modelled as `List Char`; `in`, `split`, `endswith`
  and `int()` are re-implemented below following Python's semantics.
* Python floats are modelled exactly: as `ℚ` where only field arithmetic
  occurs (bounding boxes, scene normalization, input validation) and as
  `ℝ` where trigonometry occurs (the camera model).
* Python's `sorted` with a key is modelled by the stable
  `List.insertionSort` on the key comparison; Python's Timsort is also
  stable, and a stable sort's output is unique given the key preorder.
* VTK calls are embedded by their documented semantics where a claim
  depends on them (the actor transform, the camera state); purely visual
  machinery (rasterization, marching cubes, smoothing) is abstracted as
  opaque function parameters, since every claim below quantifies over
  their output rather than their internals.
-/

namespace TumorViz

/-! ## Python string primitives (for the FrameSequencer, `3Dgif.py` lines 303-336) -/

/-- Index of the first occurrence of `pat` inside `s`, if any.
Embeds the search underlying Python's `pat in s` and `s.split(pat)`. -/
def findSub (pat : List Char) : List Char → Option Nat
  | [] => if pat = [] then some 0 else none
  | c :: rest =>
      if pat.isPrefixOf (c :: rest) then some 0
      else (findSub pat rest).map (· + 1)

/-- Python's `pat in s` substring test (for nonempty `pat`). -/
def containsSub (pat s : List Char) : Bool :=
  (findSub pat s).isSome

/-- Python's `s.endswith(pat)` suffix test. -/
def endsWith (pat s : List Char) : Bool :=
  pat.isSuffixOf s

/-- Fuelled worker for `pySplit`: splits `s` at each non-overlapping
occurrence of `sep`, left to right, exactly as Python's `s.split(sep)`. -/
def pySplitAux (sep : List Char) : Nat → List Char → List (List Char)
  | 0, s => [s]
  | fuel + 1, s =>
      match findSub sep s with
      | none => [s]
      | some i => s.take i :: pySplitAux sep fuel (s.drop (i + sep.length))

/-- Python's `s.split(sep)` for a nonempty separator.  The fuel
`s.length + 1` suffices: each recursive step drops at least one
character when `sep` is nonempty. -/
def pySplit (sep s : List Char) : List (List Char) :=
  pySplitAux sep (s.length + 1) s

/-- Digits-after-first-digit worker for `pyInt`: Python's integer
literals allow single underscores strictly between digits. -/
def pyIntDigits : Nat → List Char → Option Nat
  | acc, [] => some acc
  | acc, c :: rest =>
      if c.isDigit then pyIntDigits (10 * acc + (c.toNat - 48)) rest
      else if c = '_' then
        match rest with
        | [] => none
        | d :: rest2 =>
            if d.isDigit then pyIntDigits (10 * acc + (d.toNat - 48)) rest2
            else none
      else none

/-- Nonempty digit string (with Python's internal underscores) to `Nat`. -/
def pyNat : List Char → Option Nat
  | [] => none
  | c :: rest => if c.isDigit then pyIntDigits (c.toNat - 48) rest else none

/-- Python's `int(s)` on a decimal string: surrounding whitespace is
ignored, an optional sign is allowed, then digits with optional single
underscores between them; anything else raises `ValueError`, modelled
as `none`. -/
def pyInt (s : List Char) : Option Int :=
  let t := ((s.dropWhile Char.isWhitespace).reverse.dropWhile Char.isWhitespace).reverse
  match t with
  | '+' :: rest => (pyNat rest).map Int.ofNat
  | '-' :: rest => (pyNat rest).map (fun n => -(n : Int))
  | _ => (pyNat t).map Int.ofNat

/-! ## FrameSequencer file ordering (`create_growth_animation`, lines 303-336) -/

def stepTok : List Char := "step_".toList

def finalTok : List Char := "final".toList

def niiSuffix : List Char := ".nii.gz".toList

def dotTok : List Char := ".".toList

/-- The step index the sequencer extracts from a filename:
`int(f.split('step_')[1].split('.')[0])` (lines 317-318), with `none`
for the `IndexError`/`ValueError` path (lines 320-322).  In the code a
file with an unparseable index is absent from the `step_numbers` dict
and `step_numbers.get(f, float('inf'))` then yields `inf`; here `none`
plays the role of that `inf` sentinel. -/
def extractStepNum (f : List Char) : Option Int :=
  match pySplit stepTok f with
  | _ :: part1 :: _ =>
      match pySplit dotTok part1 with
      | tok :: _ => pyInt tok
      | [] => none
  | _ => none

/-- The sort key comparison of line 325: `step_numbers.get(f, inf)` under
`≤`, with `none` standing for the `inf` default. -/
def stepKeyLE (a b : List Char) : Bool :=
  match extractStepNum a, extractStepNum b with
  | _, none => true
  | none, some _ => false
  | some x, some y => decide (x ≤ y)

/-- The sort key comparison as a decidable relation, for `insertionSort`. -/
def stepLe (a b : List Char) : Prop :=
  stepKeyLE a b = true

instance : DecidableRel stepLe :=
  fun a b => inferInstanceAs (Decidable (stepKeyLE a b = true))

instance : IsTotal (List Char) stepLe where
  total a b := by
    unfold stepLe stepKeyLE
    cases extractStepNum a <;> cases extractStepNum b <;> simp <;> omega

instance : IsTrans (List Char) stepLe where
  trans a b c := by
    unfold stepLe stepKeyLE
    cases extractStepNum a <;> cases extractStepNum b <;> cases extractStepNum c <;>
      simp <;> omega

/-- The `.nii.gz` directory listing of line 303. -/
def niiFilesOf (allFiles : List (List Char)) : List (List Char) :=
  allFiles.filter (fun f => endsWith niiSuffix f)

/-- The `step_files` list of line 311. -/
def stepFilesOf (allFiles : List (List Char)) : List (List Char) :=
  (niiFilesOf allFiles).filter (fun f => containsSub stepTok f)

/-- The `sorted_files` list of line 325, before the final files are
appended: the step files sorted ascending by the key of `stepKeyLE`.
Python's Timsort is a stable sort and a stable sort's output is uniquely
determined by the key preorder and the input order, so the stable
`insertionSort` is an exact model of `sorted(step_files, key=...)`. -/
def sortedStepFilesOf (allFiles : List (List Char)) : List (List Char) :=
  List.insertionSort stepLe (stepFilesOf allFiles)

/-- The `final_files` list of line 328. -/
def finalFilesOf (allFiles : List (List Char)) : List (List Char) :=
  (niiFilesOf allFiles).filter (fun f => containsSub finalTok f)

/-- The ordered list of files the animation loop iterates over
(`create_growth_animation` lines 303-336): `.nii.gz` files containing
`step_`, sorted ascending by extracted step index with unparseable
indices keyed as `inf` (line 325), followed by files containing `final`
(lines 328-329); the whole list reversed when reverse order is
requested (lines 332-333). -/
def sortedAnimationFiles (allFiles : List (List Char)) (reverseOrder : Bool) :
    List (List Char) :=
  let forward := sortedStepFilesOf allFiles ++ finalFilesOf allFiles
  if reverseOrder then forward.reverse else forward

/-! ## CameraModel (`adjust_camera_settings`, lines 123-152) -/

/-- The camera state set by `adjust_camera_settings`: position, focal
point and view-up vector, plus the projection flags of lines 149-150. -/
structure Camera where
  position : ℝ × ℝ × ℝ
  focalPoint : ℝ × ℝ × ℝ
  viewUp : ℝ × ℝ × ℝ
  parallelProjection : Bool
  parallelScale : ℝ

/-- The base camera distance of line 126: `distance = 2.0`. -/
def cameraDistance : ℝ := 2

/-- Embeds `np.radians`: degrees to radians. -/
noncomputable def radians (deg : ℝ) : ℝ :=
  deg * (Real.pi / 180)

/-- Embeds `adjust_camera_settings(camera, angle_h, angle_v)` (lines 123-152):
position on a sphere of radius 2 (lines 133-137), focal point at the
origin (line 138), view-up `(0,1,0)` normally and
`(-sin θ, 0, -cos θ)` when `|angle_v| > 80` (lines 140-147), parallel
projection with parallel scale 1 (lines 149-150).  The function applies
these formulas to any angle pair without a domain check. -/
noncomputable def adjust_camera_settings (angle_h angle_v : ℝ) : Camera :=
  let h_rad := radians angle_h
  let v_rad := radians angle_v
  let x := cameraDistance * Real.sin h_rad * Real.cos v_rad
  let y := cameraDistance * Real.sin v_rad
  let z := cameraDistance * Real.cos h_rad * Real.cos v_rad
  let up : ℝ × ℝ × ℝ :=
    if 80 < |angle_v| then (-Real.sin h_rad, 0, -Real.cos h_rad)
    else (0, 1, 0)
  { position := (x, y, z)
    focalPoint := (0, 0, 0)
    viewUp := up
    parallelProjection := true
    parallelScale := 1 }

/-- Squared Euclidean length of a coordinate triple. -/
def normSq (p : ℝ × ℝ × ℝ) : ℝ :=
  p.1 ^ 2 + p.2.1 ^ 2 + p.2.2 ^ 2

/-! ## Interactive view validation (`get_user_view`, lines 380-410)

The `while True: angle = float(input()); if lo <= angle <= hi: break`
loop is modelled over a finite stream of input attempts: `none` is an
attempt that fails `float()` parsing (`ValueError`, retried), `some x`
is a parsed number, and the loop returns the first attempt inside the
closed range.  The real loop blocks forever when no valid attempt
arrives; an exhausted stream is modelled as `none`. -/

def readAngleLoop (lo hi : ℚ) : List (Option ℚ) → Option ℚ
  | [] => none
  | none :: rest => readAngleLoop lo hi rest
  | some x :: rest =>
      if lo ≤ x ∧ x ≤ hi then some x else readAngleLoop lo hi rest

/-- Embeds `get_user_view` (lines 380-410) without the view-name prompt: the
horizontal angle is read until it lies in `[-180, 180]` (lines
386-393), then the vertical angle until it lies in `[-90, 90]`
(lines 395-402). -/
def get_user_view (hIns vIns : List (Option ℚ)) : Option (ℚ × ℚ) :=
  match readAngleLoop (-180) 180 hIns, readAngleLoop (-90) 90 vIns with
  | some h, some v => some (h, v)
  | _, _ => none

/-! ## Label properties and selection (lines 58-104) -/

/-- One row of the label table of `get_label_properties`. -/
structure LabelProps where
  name : String
  desc : String
  color : ℚ × ℚ × ℚ
  opacity : ℚ
deriving DecidableEq, Repr

/-- The static label table of `get_label_properties` (lines 58-71). -/
def get_label_properties : List (Nat × LabelProps) :=
  [(1, ⟨"PDAC_lesion", "Pancreatic Ductal Adenocarcinoma", (1, 0, 0), 1⟩),
   (2, ⟨"Veins", "Veins", (0, 0, 1), 0.8⟩),
   (3, ⟨"Arteries", "Arteries", (1, 0.4, 0.4), 0.8⟩),
   (4, ⟨"pancreas", "Pancreatic Parenchyma", (0.2, 0.8, 0.2), 0.2⟩),
   (5, ⟨"pancreatic_duct", "Pancreatic Duct", (1, 1, 0), 0.9⟩),
   (6, ⟨"bile_duct", "Bile Duct", (0, 1, 1), 0.8⟩),
   (7, ⟨"pancreatic_cyst", "Pancreatic Cyst", (0.8, 0.6, 1), 0.7⟩),
   (8, ⟨"pancreatic_pnet", "Pancreatic Neuroendocrine Tumor", (1, 0.6, 0.2), 0.9⟩),
   (9, ⟨"postcava", "Postcava", (0.4, 0, 0.8), 0.8⟩),
   (10, ⟨"superior_mesenteric_artery", "Superior Mesenteric Artery", (1, 0.8, 0), 1⟩)]

/-- Python's `label_props[label]` dictionary lookup, `none` modelling a
`KeyError`. -/
def lookupProps (l : Nat) : Option LabelProps :=
  (get_label_properties.find? (fun p => p.1 == l)).map (·.2)

/-- Embeds `show_available_labels` (lines 73-83): the labels of the volume that
are nonzero and present in the label table, in volume order. -/
def show_available_labels (uniqueLabels : List Nat) : List Nat :=
  uniqueLabels.filter (fun l => !(l == 0) && (lookupProps l).isSome)

/-! ## Scene geometry (`capture_nii_3d_view`, lines 154-289) -/

/-- A point of ℝ³, with exact rational coordinates. -/
structure Vec3 where
  x : ℚ
  y : ℚ
  z : ℚ
deriving DecidableEq, Repr

/-- An axis-aligned bounding box, as VTK's 6-tuple
`(xmin, xmax, ymin, ymax, zmin, zmax)`. -/
structure Bounds where
  xmin : ℚ
  xmax : ℚ
  ymin : ℚ
  ymax : ℚ
  zmin : ℚ
  zmax : ℚ
deriving DecidableEq, Repr

/-- The per-actor update of lines 244-248: componentwise `min` on the
even slots and `max` on the odd slots. -/
def unionBounds (a b : Bounds) : Bounds :=
  ⟨min a.xmin b.xmin, max a.xmax b.xmax,
   min a.ymin b.ymin, max a.ymax b.ymax,
   min a.zmin b.zmin, max a.zmax b.zmax⟩

/-- The bounds accumulation of lines 196-198 and 242-248: the running
box starts at the `(inf, -inf, ...)` sentinel and each actor's box is
folded in with `min`/`max`.  Because `min(inf, x) = x` and
`max(-inf, x) = x`, the sentinel state is modelled as `none` and the
first actor's box becomes the initial value; the `bounds[0] == inf`
emptiness test of line 251 is the `none` case. -/
def accBounds (bs : List Bounds) : Option Bounds :=
  bs.foldl
    (fun acc b =>
      match acc with
      | none => some b
      | some a => some (unionBounds a b))
    none

/-- The scene center of line 256: the midpoint of the overall box. -/
def sceneCenter (b : Bounds) : Vec3 :=
  ⟨(b.xmax + b.xmin) / 2, (b.ymax + b.ymin) / 2, (b.zmax + b.zmin) / 2⟩

/-- The uniform scale of line 257: the reciprocal of the largest span
among the three axes (Python's `max(a, b, c)`). -/
def sceneScale (b : Bounds) : ℚ :=
  1 / max (b.xmax - b.xmin) (max (b.ymax - b.ymin) (b.zmax - b.zmin))

/-- Componentwise negation, for `SetPosition(-center[0], ...)`. -/
def negV (p : Vec3) : Vec3 :=
  ⟨-p.x, -p.y, -p.z⟩

/-- Translation of a point. -/
def translatePt (t p : Vec3) : Vec3 :=
  ⟨p.x + t.x, p.y + t.y, p.z + t.z⟩

/-- Uniform scaling of a point about the world origin. -/
def scalePt (s : ℚ) (p : Vec3) : Vec3 :=
  ⟨s * p.x, s * p.y, s * p.z⟩

/-- The point transform of a `vtkActor` with `SetPosition(position)` and
`SetScale(s)` and default origin/orientation.  Embeds
`vtkProp3D::ComputeMatrix`, which in post-multiply order translates by
`-Origin`, scales, rotates, then translates by `Origin + Position`;
with `Origin = (0,0,0)` and identity orientation this is the scaling
about the world origin followed by the translation by `Position`:
`p ↦ s·p + position`. -/
def vtkActorPointMap (position : Vec3) (s : ℚ) : Vec3 → Vec3 :=
  translatePt position ∘ scalePt s

/-- Modelled from the spec: the transform §4.3 prescribes in words,
`translate(-center)` followed by `scale(uniform scale)`, i.e.
`p ↦ scale · (p - center)`.  Declared only for refinement comparison
against `vtkActorPointMap`, which is what lines 262-263 actually
install. -/
def specActorPointMap (center : Vec3) (s : ℚ) : Vec3 → Vec3 :=
  scalePt s ∘ translatePt (negV center)

/-! ## Meshes, volumes, actors and capture -/

/-- The facts about a smoothed mesh that the capture logic inspects:
its point count (line 211) and its axis-aligned bounding box
(line 243, `actor.GetBounds()` before any transform is set). -/
structure Mesh where
  numPoints : Nat
  bounds : Bounds
deriving DecidableEq, Repr

/-- One loaded label volume: `np.unique` of its voxels (line 159) and,
for each label value, the output of `process_nii_to_mesh` (lines
105-121).  The mesh extractor itself — VTK's discrete marching cubes
followed by windowed-sinc smoothing — is opaque external geometry and
is abstracted as the `meshFor` field; every claim below quantifies over
its output rather than its internals. -/
structure VolumeData where
  uniqueLabels : List Nat
  meshFor : Nat → Mesh

/-- A `vtkActor` as far as scene composition is concerned: its label,
display properties, untransformed bounds, and the `Position`/`Scale`
installed on it (defaults `(0,0,0)` and `1`). -/
structure Actor where
  label : Nat
  props : LabelProps
  bounds : Bounds
  position : Vec3
  scaleFactor : ℚ
deriving DecidableEq, Repr

/-- A Python exception escaping `capture_nii_3d_view`.  The only one the
embedded fragment can raise is the `KeyError` of line 216
(`label_props[label_value]` for a label missing from the table). -/
inductive PyError where
  | keyError
deriving DecidableEq, Repr

/-- The actor-building loop of lines 205-248: a selected label absent
from the volume is skipped (lines 206-208), a label whose mesh has no
points is skipped (lines 211-213), and otherwise an actor carrying the
table's color/opacity is created and the label is recorded in
`rendered_labels`.  Returns the actors and the rendered labels in loop
order. -/
def buildActors (vol : VolumeData) : List Nat → Except PyError (List Actor × List Nat)
  | [] => .ok ([], [])
  | l :: rest =>
      if l ∈ vol.uniqueLabels then
        if (vol.meshFor l).numPoints = 0 then buildActors vol rest
        else
          match lookupProps l with
          | none => .error .keyError
          | some props =>
              match buildActors vol rest with
              | .error e => .error e
              | .ok (as, rls) =>
                  .ok (⟨l, props, (vol.meshFor l).bounds, ⟨0, 0, 0⟩, 1⟩ :: as, l :: rls)
      else buildActors vol rest

/-- The second pass of lines 260-264: every surviving actor gets
`SetPosition(-center)` and `SetScale(scale)` for the overall box `b`. -/
def placeActors (actors : List Actor) (b : Bounds) : List Actor :=
  actors.map fun a =>
    { a with position := negV (sceneCenter b), scaleFactor := sceneScale b }

/-- A rendered pixel buffer: height, width, and an RGB value per pixel. -/
structure Frame where
  height : Nat
  width : Nat
  pixel : Nat → Nat → Nat × Nat × Nat

/-- The all-black frame of line 253:
`np.zeros((window_size[1], window_size[0], 3), dtype=np.uint8)`. -/
def blackFrame (h w : Nat) : Frame :=
  ⟨h, w, fun _ _ => (0, 0, 0)⟩

/-- What `capture_nii_3d_view` returns to its caller.  The empty-scene
path of line 253 returns the bare zeros array; the normal path of line
289 returns the `(numpy_array, selected_labels)` tuple. -/
inductive CaptureReturn where
  | bare (frame : Frame)
  | withLabels (frame : Frame) (selectedLabels : List Nat)

/-- Embeds `capture_nii_3d_view` (lines 154-289).  `choose` abstracts the
interactive `get_user_label_selection` of the first run (lines
162-164); `render` abstracts the deterministic VTK offscreen
rasterization (lines 166-193 and 267-284) as a function of the placed
actors and the camera.  The selected labels are taken from the caller
when given, otherwise chosen from the volume's available labels; the
actors are built, their boxes unioned, and either the bare all-black
array is returned (empty scene, lines 250-253) or the scene is
normalized, rendered, and returned together with the selected labels
(lines 255-289). -/
noncomputable def capture_nii_3d_view (vol : VolumeData)
    (choose : List Nat → List Nat)
    (render : List Actor → Camera → Frame)
    (angle_h angle_v : ℝ)
    (selectedIn : Option (List Nat))
    (windowSize : Nat × Nat) : Except PyError CaptureReturn :=
  let selectedLabels :=
    match selectedIn with
    | none => choose (show_available_labels vol.uniqueLabels)
    | some s => s
  match buildActors vol selectedLabels with
  | .error e => .error e
  | .ok (actors, _renderedLabels) =>
      match accBounds (actors.map Actor.bounds) with
      | none => .ok (.bare (blackFrame windowSize.2 windowSize.1))
      | some b =>
          .ok (.withLabels
            (render (placeActors actors b) (adjust_camera_settings angle_h angle_v))
            selectedLabels)

/-! ## The animation loop (`create_growth_animation`, lines 340-351) -/

/-- How one iteration of the animation loop can fail: an exception
propagating out of `capture_nii_3d_view`, or the `ValueError` raised at
line 347 when the two-name tuple unpacking
`image_array, selected_labels = capture_nii_3d_view(...)` is applied to
the bare `(H, W, 3)` zeros array of the empty-scene path (iterating a
numpy array yields its `H` first-axis rows, and `H ≠ 2`). -/
inductive AnimError where
  | captureRaised
  | valueErrorUnpack
deriving DecidableEq, Repr

/-- The per-volume step of lines 347-349 as seen by the loop: unpack the
capture result into `(image_array, selected_labels)`. -/
def animStep (r : Except PyError CaptureReturn) : Except AnimError (Frame × List Nat) :=
  match r with
  | .error _ => .error .captureRaised
  | .ok (.withLabels f s) => .ok (f, s)
  | .ok (.bare _) => .error .valueErrorUnpack

/-- The `for nii_file in sorted_files` loop of lines 340-351, over the
already-loaded volumes.  The state threads `selected_labels`
(initialized to `None` at line 341 and rebound from each capture's
return at line 347).  Each entry of the result records the selection
that was passed to that volume's capture call, paired with the frame it
produced. -/
noncomputable def animLoop (choose : List Nat → List Nat)
    (render : List Actor → Camera → Frame)
    (angle_h angle_v : ℝ) (windowSize : Nat × Nat) :
    List VolumeData → Option (List Nat) →
      Except AnimError (List (Option (List Nat) × Frame) × Option (List Nat))
  | [], sel => .ok ([], sel)
  | v :: rest, sel =>
      match animStep (capture_nii_3d_view v choose render angle_h angle_v sel windowSize) with
      | .error e => .error e
      | .ok (f, s) =>
          match animLoop choose render angle_h angle_v windowSize rest (some s) with
          | .error e => .error e
          | .ok (tl, fin) => .ok ((sel, f) :: tl, fin)

/-! ## Concrete fixtures used by witnesses and counterexamples -/

/-- The spec's FrameSequencer test directory:
`{step_002, step_000, final, step_001}` as `.nii.gz` filenames. -/
def exampleDirListing : List (List Char) :=
  ["step_002.nii.gz".toList, "step_000.nii.gz".toList,
   "final.nii.gz".toList, "step_001.nii.gz".toList]

/-- A directory holding one file whose name contains both `step_` and
`final`, one `.nii.gz` file containing neither, and one non-`.nii.gz`
file. -/
def mixedDirListing : List (List Char) :=
  ["step_03_final.nii.gz".toList, "plain.nii.gz".toList, "notes.txt".toList]

/-- A volume containing only background voxels. -/
def bgVol : VolumeData :=
  ⟨[0], fun _ => ⟨0, ⟨0, 0, 0, 0, 0, 0⟩⟩⟩

/-- A volume whose labels are `{0, 4}`, where label 4 yields a valid
8-point mesh with a nondegenerate box and every other label yields an
empty mesh. -/
def vol04 : VolumeData :=
  ⟨[0, 4], fun l => if l = 4 then ⟨8, ⟨0, 1, 0, 1, 0, 1⟩⟩ else ⟨0, ⟨0, 0, 0, 0, 0, 0⟩⟩⟩

/-- A deterministic stand-in for the VTK rasterizer. -/
noncomputable def constRender : List Actor → Camera → Frame :=
  fun _ _ => blackFrame 800 800

/-- A nondegenerate overall bounding box with spans `(2, 1, 1)`. -/
def sampleBounds : Bounds :=
  ⟨0, 2, 0, 1, 0, 1⟩

/-! # Theorems -/

/-! ## Claim C3 — FrameSequencer ordering -/

/-- Sorted output of the step-file sort, transported to the claim's
reading of the key: parsed indices ascend, and a file with an
unparseable index is never followed by one with a parseable index. -/
theorem sortedStepFilesOf_pairwise (fs : List (List Char)) :
    (sortedStepFilesOf fs).Pairwise (fun a b =>
      (∀ i j, extractStepNum a = some i → extractStepNum b = some j → i ≤ j)
      ∧ (extractStepNum a = none → extractStepNum b = none)) := by
  have hp : (sortedStepFilesOf fs).Pairwise stepLe :=
    List.sorted_insertionSort stepLe (stepFilesOf fs)
  refine hp.imp ?_
  intro a b hab
  have hab' : stepKeyLE a b = true := hab
  constructor
  · intro i j hi hj
    unfold stepKeyLE at hab'
    rw [hi, hj] at hab'
    simpa using hab'
  · intro hna
    unfold stepKeyLE at hab'
    rw [hna] at hab'
    cases hb : extractStepNum b with
    | none => rfl
    | some y => rw [hb] at hab'; simp at hab'

/-- Claim C3: the sequencer orders step files ascending by the integer
index parsed after `step_`; step files with an unparseable index sort
after all parseable ones; `final` files come after all step files; in
reverse mode the whole ordered list is reversed; and on the spec's
example directory `{step_002, step_000, final, step_001}` the forward
order is `[step_000, step_001, step_002, final]` and the reverse order
is `[final, step_002, step_001, step_000]`. -/
theorem claim_C3_sequencer_ordering :
    (∀ fs, (sortedStepFilesOf fs).Pairwise (fun a b =>
        (∀ i j, extractStepNum a = some i → extractStepNum b = some j → i ≤ j)
        ∧ (extractStepNum a = none → extractStepNum b = none)))
    ∧ (∀ fs, sortedAnimationFiles fs false = sortedStepFilesOf fs ++ finalFilesOf fs)
    ∧ (∀ fs, sortedAnimationFiles fs true = (sortedAnimationFiles fs false).reverse)
    ∧ sortedAnimationFiles exampleDirListing false =
        ["step_000.nii.gz".toList, "step_001.nii.gz".toList,
         "step_002.nii.gz".toList, "final.nii.gz".toList]
    ∧ sortedAnimationFiles exampleDirListing true =
        ["final.nii.gz".toList, "step_002.nii.gz".toList,
         "step_001.nii.gz".toList, "step_000.nii.gz".toList] := by
  refine ⟨sortedStepFilesOf_pairwise, ?_, ?_, by decide, by decide⟩
  · intro fs; rfl
  · intro fs; rfl

/-- Concrete instance of claim C3 on the spec's example directory. -/
theorem claim_C3_sequencer_ordering_witness :
    sortedAnimationFiles exampleDirListing false =
      ["step_000.nii.gz".toList, "step_001.nii.gz".toList,
       "step_002.nii.gz".toList, "final.nii.gz".toList] :=
  claim_C3_sequencer_ordering.2.2.2.1

/-! ## Claim C10 — which files are processed -/

/-- Claim C10: the processed list is exactly the step-sorted `.nii.gz`
files containing `step_` followed by the `.nii.gz` files containing
`final`; membership requires one of the two substrings, so a `.nii.gz`
file containing neither is excluded; and a file containing both
substrings occurs twice as often in the processed list as in the
directory. -/
theorem claim_C10_file_inclusion :
    (∀ fs, sortedAnimationFiles fs false = sortedStepFilesOf fs ++ finalFilesOf fs)
    ∧ (∀ fs rev f, f ∈ sortedAnimationFiles fs rev ↔
        f ∈ niiFilesOf fs ∧
          (containsSub stepTok f = true ∨ containsSub finalTok f = true))
    ∧ (∀ fs rev f, containsSub stepTok f = false → containsSub finalTok f = false →
        f ∉ sortedAnimationFiles fs rev)
    ∧ (∀ fs f, endsWith niiSuffix f = true → containsSub stepTok f = true →
        containsSub finalTok f = true →
        (sortedAnimationFiles fs false).count f = 2 * fs.count f) := by
  have hmem : ∀ fs rev f, f ∈ sortedAnimationFiles fs rev ↔
      f ∈ niiFilesOf fs ∧
        (containsSub stepTok f = true ∨ containsSub finalTok f = true) := by
    intro fs rev f
    unfold sortedAnimationFiles
    cases rev <;>
      simp only [List.mem_reverse, if_true, if_false, Bool.false_eq_true,
        List.mem_append, sortedStepFilesOf, List.mem_insertionSort, stepFilesOf,
        finalFilesOf, List.mem_filter] <;>
      tauto
  refine ⟨fun fs => rfl, hmem, ?_, ?_⟩
  · intro fs rev f hs hf hmem'
    rcases (hmem fs rev f).mp hmem' with ⟨-, h | h⟩
    · rw [hs] at h; exact Bool.false_ne_true h
    · rw [hf] at h; exact Bool.false_ne_true h
  · intro fs f hnii hs hf
    unfold sortedAnimationFiles
    simp only [Bool.false_eq_true, ite_false]
    rw [List.count_append]
    have h1 : (sortedStepFilesOf fs).count f = (stepFilesOf fs).count f := by
      rw [List.count_eq_countP, List.count_eq_countP]
      exact (List.perm_insertionSort stepLe (stepFilesOf fs)).countP_eq (· == f)
    have h2 : (stepFilesOf fs).count f = (niiFilesOf fs).count f := by
      unfold stepFilesOf
      exact List.count_filter hs
    have h3 : (finalFilesOf fs).count f = (niiFilesOf fs).count f := by
      unfold finalFilesOf
      exact List.count_filter hf
    have h4 : (niiFilesOf fs).count f = fs.count f := by
      unfold niiFilesOf
      exact List.count_filter hnii
    rw [h1, h2, h3, h4]
    omega

/-- Concrete instance of claim C10: in a directory with
`step_03_final.nii.gz` (both substrings), `plain.nii.gz` (neither) and
`notes.txt`, the both-substring file is processed twice and the
neither-substring file not at all. -/
theorem claim_C10_file_inclusion_witness :
    (sortedAnimationFiles mixedDirListing false).count "step_03_final.nii.gz".toList
        = 2 * mixedDirListing.count "step_03_final.nii.gz".toList
    ∧ "plain.nii.gz".toList ∉ sortedAnimationFiles mixedDirListing false :=
  ⟨claim_C10_file_inclusion.2.2.2 mixedDirListing "step_03_final.nii.gz".toList
      (by decide) (by decide) (by decide),
   claim_C10_file_inclusion.2.2.1 mixedDirListing false "plain.nii.gz".toList
      (by decide) (by decide)⟩

/-! ## Claim C7 — union of the actors' bounding boxes -/

/-- Evaluating the per-actor fold from a concrete first box. -/
theorem foldl_unionBounds_eq (bs : List Bounds) (a : Bounds) :
    bs.foldl unionBounds a =
      ⟨(bs.map Bounds.xmin).foldl min a.xmin, (bs.map Bounds.xmax).foldl max a.xmax,
       (bs.map Bounds.ymin).foldl min a.ymin, (bs.map Bounds.ymax).foldl max a.ymax,
       (bs.map Bounds.zmin).foldl min a.zmin, (bs.map Bounds.zmax).foldl max a.zmax⟩ := by
  induction bs generalizing a with
  | nil => rfl
  | cons b bs ih => exact ih (unionBounds a b)

/-- The accumulated bounds of a nonempty box list leave the `inf`
sentinel and equal the fold of the componentwise union. -/
theorem accBounds_cons (a : Bounds) (bs : List Bounds) :
    accBounds (a :: bs) = some (bs.foldl unionBounds a) := by
  unfold accBounds
  show List.foldl _ (some a) bs = _
  induction bs generalizing a with
  | nil => rfl
  | cons b bs ih => exact ih (unionBounds a b)

/-- Claim C7: for a nonempty collection of actors, the composed scene
bounding box of lines 196-248 is exactly the union of the individual
actors' boxes — each per-axis minimum is the minimum over all actors'
minima and each per-axis maximum is the maximum over all actors'
maxima. -/
theorem claim_C7_union_bounding_box (a0 : Actor) (actors : List Actor) :
    accBounds ((a0 :: actors).map Actor.bounds) = some
      ⟨(actors.map (fun a => a.bounds.xmin)).foldl min a0.bounds.xmin,
       (actors.map (fun a => a.bounds.xmax)).foldl max a0.bounds.xmax,
       (actors.map (fun a => a.bounds.ymin)).foldl min a0.bounds.ymin,
       (actors.map (fun a => a.bounds.ymax)).foldl max a0.bounds.ymax,
       (actors.map (fun a => a.bounds.zmin)).foldl min a0.bounds.zmin,
       (actors.map (fun a => a.bounds.zmax)).foldl max a0.bounds.zmax⟩ := by
  rw [List.map_cons, accBounds_cons, foldl_unionBounds_eq]
  simp only [List.map_map]
  rfl

/-! ## Claim C2 — the normalization transform applied to each actor -/

/-- Counterexample to claim C2 as stated: for the overall box
`(0,2,0,1,0,1)` (center `(1, 1/2, 1/2)`, scale `1/2`), the transform
that lines 262-263 install through `SetPosition(-center)` and
`SetScale(scale)` sends the vertex `(0,0,0)` to `(-1, -1/2, -1/2)`,
whereas the claimed map `p ↦ scale·(p - center)` sends it to
`(-1/2, -1/4, -1/4)`.  VTK composes the actor matrix as scaling about
the world origin followed by the `Position` translation, not as
translation followed by scaling. -/
theorem claim_C2_transform_counterexample :
    vtkActorPointMap (negV (sceneCenter sampleBounds)) (sceneScale sampleBounds) ⟨0, 0, 0⟩
      ≠ specActorPointMap (sceneCenter sampleBounds) (sceneScale sampleBounds) ⟨0, 0, 0⟩
    ∧ placeActors [⟨4, ⟨"pancreas", "Pancreatic Parenchyma", (0.2, 0.8, 0.2), 0.2⟩,
          sampleBounds, ⟨0, 0, 0⟩, 1⟩] sampleBounds
      = [⟨4, ⟨"pancreas", "Pancreatic Parenchyma", (0.2, 0.8, 0.2), 0.2⟩,
          sampleBounds, negV (sceneCenter sampleBounds), sceneScale sampleBounds⟩] := by
  refine ⟨fun h => ?_, rfl⟩
  unfold vtkActorPointMap specActorPointMap translatePt scalePt negV sceneCenter
    sceneScale sampleBounds at h
  simp only [Function.comp, Vec3.mk.injEq] at h
  norm_num at h

/-- Claim C2 as amended: every actor surviving to the second pass gets
`SetPosition(-center)` and `SetScale(scale)`, and the resulting
transform maps each vertex `p` to `scale·p - center` (scale about the
world origin, then translate), not `scale·(p - center)`; the largest
axis span of the transformed overall box is still exactly 1. -/
theorem claim_C2_transform_amended (b : Bounds) (p : Vec3)
    (hpos : 0 < max (b.xmax - b.xmin) (max (b.ymax - b.ymin) (b.zmax - b.zmin))) :
    (∀ actors, ∀ pa ∈ placeActors actors b,
      vtkActorPointMap pa.position pa.scaleFactor p =
        ⟨sceneScale b * p.x - (sceneCenter b).x,
         sceneScale b * p.y - (sceneCenter b).y,
         sceneScale b * p.z - (sceneCenter b).z⟩)
    ∧ max (sceneScale b * (b.xmax - b.xmin))
        (max (sceneScale b * (b.ymax - b.ymin)) (sceneScale b * (b.zmax - b.zmin))) = 1 := by
  constructor
  · intro actors pa hpa
    unfold placeActors at hpa
    rcases List.mem_map.mp hpa with ⟨a, -, rfl⟩
    show translatePt (negV (sceneCenter b)) (scalePt (sceneScale b) p) = _
    unfold translatePt scalePt negV
    simp only [Vec3.mk.injEq]
    exact ⟨by ring, by ring, by ring⟩
  · have hM : max (b.xmax - b.xmin) (max (b.ymax - b.ymin) (b.zmax - b.zmin)) ≠ 0 :=
      ne_of_gt hpos
    have hs : 0 ≤ sceneScale b := by
      unfold sceneScale
      exact div_nonneg zero_le_one (le_of_lt hpos)
    rw [← mul_max_of_nonneg _ _ hs, ← mul_max_of_nonneg _ _ hs]
    unfold sceneScale
    exact one_div_mul_cancel hM

/-- Concrete instance of the amended claim C2 at the box
`(0,2,0,1,0,1)`. -/
theorem claim_C2_transform_amended_witness :
    max (sceneScale sampleBounds * (sampleBounds.xmax - sampleBounds.xmin))
      (max (sceneScale sampleBounds * (sampleBounds.ymax - sampleBounds.ymin))
        (sceneScale sampleBounds * (sampleBounds.zmax - sampleBounds.zmin))) = 1 :=
  (claim_C2_transform_amended sampleBounds ⟨3, 4, 5⟩
    (by unfold sampleBounds; norm_num)).2

/-! ## Claim C4 — the view-up vector switch -/

/-- Claim C4: for angles in the documented domain, the up-vector is
`(0,1,0)` whenever `|φ| ≤ 80` and `(-sin θ, 0, -cos θ)` whenever
`|φ| > 80` (in particular at `φ = 90`), the switch happening at
exactly `|φ| = 80` (lines 140-147). -/
theorem claim_C4_up_vector (θ φ : ℝ) (hθlo : -180 ≤ θ) (hθhi : θ ≤ 180)
    (hφlo : -90 ≤ φ) (hφhi : φ ≤ 90) :
    (|φ| ≤ 80 → (adjust_camera_settings θ φ).viewUp = (0, 1, 0))
    ∧ (80 < |φ| → (adjust_camera_settings θ φ).viewUp =
        (-Real.sin (radians θ), 0, -Real.cos (radians θ))) := by
  constructor
  · intro h
    show (if 80 < |φ| then _ else _) = _
    rw [if_neg (not_lt.2 h)]
  · intro h
    show (if 80 < |φ| then _ else _) = _
    rw [if_pos h]

/-- Concrete instance of claim C4 at the pole `φ = 90`, `θ = 0`:
the up-vector is `(-sin 0, 0, -cos 0) = (0, 0, -1)`. -/
theorem claim_C4_up_vector_witness :
    (adjust_camera_settings 0 90).viewUp = (0, 0, -1) := by
  have h := (claim_C4_up_vector 0 90 (by norm_num) (by norm_num) (by norm_num)
      (by norm_num)).2 (by rw [abs_of_nonneg] <;> norm_num)
  rw [h]
  simp [radians]

/-! ## Claim C8 — camera position, focal point, projection -/

/-- Claim C8: for all angles, the camera position is
`r·(sin θ·cos φ, sin φ, cos θ·cos φ)` with the fixed radius `r = 2`
(lines 126-137), the focal point is the origin (line 138), parallel
projection is enabled (line 149), and the position really lies at
distance 2 from the origin (so the radius is nonzero and outside the
unit scene). -/
theorem claim_C8_camera_position (θ φ : ℝ) :
    (adjust_camera_settings θ φ).position =
      (cameraDistance * Real.sin (radians θ) * Real.cos (radians φ),
       cameraDistance * Real.sin (radians φ),
       cameraDistance * Real.cos (radians θ) * Real.cos (radians φ))
    ∧ (adjust_camera_settings θ φ).focalPoint = (0, 0, 0)
    ∧ (adjust_camera_settings θ φ).parallelProjection = true
    ∧ cameraDistance = 2
    ∧ normSq (adjust_camera_settings θ φ).position = 2 ^ 2 := by
  refine ⟨rfl, rfl, rfl, rfl, ?_⟩
  have hθ := Real.sin_sq_add_cos_sq (radians θ)
  have hφ := Real.sin_sq_add_cos_sq (radians φ)
  show normSq
    (cameraDistance * Real.sin (radians θ) * Real.cos (radians φ),
     cameraDistance * Real.sin (radians φ),
     cameraDistance * Real.cos (radians θ) * Real.cos (radians φ)) = 2 ^ 2
  unfold normSq cameraDistance
  linear_combination (4 * Real.cos (radians φ) ^ 2) * hθ + 4 * hφ

/-! ## Claim C9 — angle domain checking -/

/-- Soundness of the retry loop: any angle it accepts lies in the
closed range it validates against. -/
theorem readAngleLoop_range (lo hi : ℚ) :
    ∀ ins x, readAngleLoop lo hi ins = some x → lo ≤ x ∧ x ≤ hi := by
  intro ins
  induction ins with
  | nil => intro x h; exact absurd h (by simp [readAngleLoop])
  | cons a rest ih =>
      intro x h
      match a with
      | none => exact ih x h
      | some q =>
          unfold readAngleLoop at h
          by_cases hq : lo ≤ q ∧ q ≤ hi
          · rw [if_pos hq] at h
            cases h
            exact hq
          · rw [if_neg hq] at h
            exact ih x h

/-- Claim C9: out-of-domain angles are rejected at the interactive
input boundary — `get_user_view` only ever returns a pair with
`-180 ≤ θ ≤ 180` and `-90 ≤ φ ≤ 90` (lines 386-402), looping past any
out-of-range or unparseable attempt — while `adjust_camera_settings`
itself performs no domain check: it is total, producing its camera
state (origin focal point, parallel projection on) for every angle
pair whatsoever. -/
theorem claim_C9_domain_validation :
    (∀ hIns vIns h v, get_user_view hIns vIns = some (h, v) →
        ((-180 ≤ h ∧ h ≤ 180) ∧ (-90 ≤ v ∧ v ≤ 90)))
    ∧ (∀ θ φ : ℝ, (adjust_camera_settings θ φ).focalPoint = (0, 0, 0)
        ∧ (adjust_camera_settings θ φ).parallelProjection = true) := by
  constructor
  · intro hIns vIns h v hok
    unfold get_user_view at hok
    cases hh : readAngleLoop (-180) 180 hIns with
    | none => rw [hh] at hok; exact absurd hok (by simp)
    | some h0 =>
        cases hv : readAngleLoop (-90) 90 vIns with
        | none => rw [hh, hv] at hok; exact absurd hok (by simp)
        | some v0 =>
            rw [hh, hv] at hok
            have hpair : h0 = h ∧ v0 = v := by
              have := Option.some.inj hok
              exact ⟨congrArg Prod.fst this, congrArg Prod.snd this⟩
            rcases hpair with ⟨rfl, rfl⟩
            exact ⟨readAngleLoop_range _ _ hIns h0 hh, readAngleLoop_range _ _ vIns v0 hv⟩
  · intro θ φ
    exact ⟨rfl, rfl⟩

/-- Concrete instance of claim C9: the reader skips an out-of-range
attempt and an unparseable attempt before accepting `45`, then skips
`100` before accepting `-60`; the accepted pair is in the domain. -/
theorem claim_C9_domain_validation_witness :
    get_user_view [some 999, none, some 45] [some 100, some (-60)] = some (45, -60)
    ∧ ((-180 ≤ (45 : ℚ) ∧ (45 : ℚ) ≤ 180) ∧ (-90 ≤ (-60 : ℚ) ∧ (-60 : ℚ) ≤ 90)) :=
  ⟨by norm_num [get_user_view, readAngleLoop],
   claim_C9_domain_validation.1 [some 999, none, some 45] [some 100, some (-60)] 45 (-60)
     (by norm_num [get_user_view, readAngleLoop])⟩

/-! ## Claim C1 — empty scene must still yield an appendable frame -/

/-- Claim C1 is the documented intent, and the first conjunct shows the
code building exactly the all-black frame of the configured size when
no selected label yields a valid mesh.  But the empty-scene path of
line 253 returns that frame bare, while the normal path of line 289
returns a `(frame, selected_labels)` tuple; the loop of line 347
unpacks two values, so on the empty-scene return the unpacking raises
`ValueError` (second conjunct) and the sequence aborts short of a frame
instead of appending the black frame.  The claim is right about the
intent; the code's return shape is the bug. -/
theorem claim_C1_empty_scene_frame :
    capture_nii_3d_view bgVol (fun a => a) constRender 0 0 (some [1]) (800, 800)
      = .ok (.bare (blackFrame 800 800))
    ∧ animStep (capture_nii_3d_view bgVol (fun a => a) constRender 0 0 (some [1]) (800, 800))
      = .error .valueErrorUnpack :=
  ⟨rfl, rfl⟩

/-! ## Claim C5 — absent labels are silently skipped -/

/-- Claim C5's skip behaviour holds: an absent selected label produces
no actor and no error (first conjunct), and when another selected label
survives, the frame is rendered from the remaining labels and the
sequencer step succeeds (second and third conjuncts).  But the claim's
final guarantee — "rather than the sequence failing" — breaks in the
subcase where the skipped label was the only selected one: the
empty-scene return-shape slip of line 253 (see the empty-scene claim)
makes the loop's tuple unpacking raise `ValueError` (fourth
conjunct). -/
theorem claim_C5_absent_label_skipped :
    buildActors vol04 [1] = .ok ([], [])
    ∧ (∃ as, buildActors vol04 [1, 4] = .ok (as, [4]))
    ∧ (∃ f, animStep (capture_nii_3d_view vol04 (fun a => a) constRender 0 0
        (some [1, 4]) (800, 800)) = .ok (f, [1, 4]))
    ∧ animStep (capture_nii_3d_view vol04 (fun a => a) constRender 0 0
        (some [1]) (800, 800)) = .error .valueErrorUnpack :=
  ⟨rfl, ⟨_, rfl⟩, ⟨_, rfl⟩, rfl⟩

/-! ## Claim C6 — the label selection is chosen once and held fixed -/

/-- The tuple unpacking succeeds exactly on the tuple-shaped capture return. -/
theorem animStep_ok {r : Except PyError CaptureReturn} {f : Frame} {s : List Nat}
    (h : animStep r = .ok (f, s)) : r = .ok (.withLabels f s) := by
  match r with
  | .error e => exact absurd h (by simp [animStep])
  | .ok (.bare g) => exact absurd h (by simp [animStep])
  | .ok (.withLabels g t) =>
      have := Except.ok.inj h
      have hf : g = f := congrArg Prod.fst this
      have hs : t = s := congrArg Prod.snd this
      rw [hf, hs]

/-- A capture that is handed a selection returns exactly that
selection (line 289 returns `selected_labels` unchanged). -/
theorem capture_selection_eq (vol : VolumeData) (choose : List Nat → List Nat)
    (render : List Actor → Camera → Frame) (ah av : ℝ) (sel : List Nat)
    (ws : Nat × Nat) (f : Frame) (s : List Nat)
    (h : capture_nii_3d_view vol choose render ah av (some sel) ws
        = .ok (.withLabels f s)) : s = sel := by
  unfold capture_nii_3d_view at h
  simp only [] at h
  cases hb : buildActors vol sel with
  | error e => rw [hb] at h; exact absurd h (by simp)
  | ok pr =>
      obtain ⟨actors, rls⟩ := pr
      rw [hb] at h
      simp only [] at h
      cases hacc : accBounds (actors.map Actor.bounds) with
      | none =>
          rw [hacc] at h
          exact absurd (Except.ok.inj h) (by simp)
      | some b =>
          rw [hacc] at h
          have := Except.ok.inj h
          exact (CaptureReturn.withLabels.inj this).2.symm

/-- A first-volume capture (no selection yet) that succeeds returns the
selection chosen interactively from that volume's available labels
(lines 162-164 and 289). -/
theorem capture_selection_none (vol : VolumeData) (choose : List Nat → List Nat)
    (render : List Actor → Camera → Frame) (ah av : ℝ)
    (ws : Nat × Nat) (f : Frame) (s : List Nat)
    (h : capture_nii_3d_view vol choose render ah av none ws
        = .ok (.withLabels f s)) :
    s = choose (show_available_labels vol.uniqueLabels) := by
  unfold capture_nii_3d_view at h
  simp only [] at h
  cases hb : buildActors vol (choose (show_available_labels vol.uniqueLabels)) with
  | error e => rw [hb] at h; exact absurd h (by simp)
  | ok pr =>
      obtain ⟨actors, rls⟩ := pr
      rw [hb] at h
      simp only [] at h
      cases hacc : accBounds (actors.map Actor.bounds) with
      | none =>
          rw [hacc] at h
          exact absurd (Except.ok.inj h) (by simp)
      | some b =>
          rw [hacc] at h
          have := Except.ok.inj h
          exact (CaptureReturn.withLabels.inj this).2.symm

/-- Once the loop state carries a selection, every later capture is
handed that same selection and the state never changes. -/
theorem animLoop_sel_const (choose : List Nat → List Nat)
    (render : List Actor → Camera → Frame) (ah av : ℝ) (ws : Nat × Nat) :
    ∀ (vols : List VolumeData) (S : List Nat) es fin,
      animLoop choose render ah av ws vols (some S) = .ok (es, fin) →
      (∀ e ∈ es, e.1 = some S) ∧ fin = some S := by
  intro vols
  induction vols with
  | nil =>
      intro S es fin h
      unfold animLoop at h
      have := Except.ok.inj h
      have hes : es = [] := (congrArg Prod.fst this).symm
      have hfin : fin = some S := (congrArg Prod.snd this).symm
      subst hes
      exact ⟨fun e he => absurd he (List.not_mem_nil e), hfin⟩
  | cons v rest ih =>
      intro S es fin h
      unfold animLoop at h
      cases hstep : animStep (capture_nii_3d_view v choose render ah av (some S) ws) with
      | error e => rw [hstep] at h; exact absurd h (by simp)
      | ok pr =>
          obtain ⟨f, s⟩ := pr
          rw [hstep] at h
          simp only [] at h
          have hsS : s = S :=
            capture_selection_eq v choose render ah av S ws f s (animStep_ok hstep)
          subst hsS
          cases hrec : animLoop choose render ah av ws rest (some s) with
          | error e => rw [hrec] at h; exact absurd h (by simp)
          | ok pr2 =>
              obtain ⟨tl, fin2⟩ := pr2
              rw [hrec] at h
              simp only [] at h
              have := Except.ok.inj h
              have hes : es = (some s, f) :: tl := (congrArg Prod.fst this).symm
              have hfin : fin = fin2 := (congrArg Prod.snd this).symm
              obtain ⟨htl, hfin2⟩ := ih s tl fin2 hrec
              subst hes hfin
              refine ⟨?_, hfin2⟩
              intro e he
              rcases List.mem_cons.mp he with rfl | hmem
              · rfl
              · exact htl e hmem

/-- Claim C6: in a successful animation run, the label selection is
determined once — interactively, from the labels available in the first
volume — and that same set is passed unchanged to the capture of every
subsequent volume (lines 340-349 thread `selected_labels`; line 289
returns it unchanged). -/
theorem claim_C6_selection_chosen_once (choose : List Nat → List Nat)
    (render : List Actor → Camera → Frame) (ah av : ℝ) (ws : Nat × Nat)
    (v : VolumeData) (rest : List VolumeData)
    (es : List (Option (List Nat) × Frame)) (fin : Option (List Nat))
    (h : animLoop choose render ah av ws (v :: rest) none = .ok (es, fin)) :
    ∃ f0 tl,
      es = (none, f0) :: tl
      ∧ capture_nii_3d_view v choose render ah av none ws
          = .ok (.withLabels f0 (choose (show_available_labels v.uniqueLabels)))
      ∧ ∀ e ∈ tl, e.1 = some (choose (show_available_labels v.uniqueLabels)) := by
  unfold animLoop at h
  cases hstep : animStep (capture_nii_3d_view v choose render ah av none ws) with
  | error e => rw [hstep] at h; exact absurd h (by simp)
  | ok pr =>
      obtain ⟨f, s⟩ := pr
      rw [hstep] at h
      simp only [] at h
      have hcap : capture_nii_3d_view v choose render ah av none ws
          = .ok (.withLabels f s) := animStep_ok hstep
      have hsS : s = choose (show_available_labels v.uniqueLabels) :=
        capture_selection_none v choose render ah av ws f s hcap
      cases hrec : animLoop choose render ah av ws rest (some s) with
      | error e => rw [hrec] at h; exact absurd h (by simp)
      | ok pr2 =>
          obtain ⟨tl, fin2⟩ := pr2
          rw [hrec] at h
          simp only [] at h
          have := Except.ok.inj h
          have hes : es = (none, f) :: tl := (congrArg Prod.fst this).symm
          obtain ⟨htl, -⟩ := animLoop_sel_const choose render ah av ws rest s tl fin2 hrec
          refine ⟨f, tl, ?_, ?_, ?_⟩
          · exact hes
          · rw [← hsS]; exact hcap
          · intro e he
            rw [← hsS]
            exact htl e he

/-- Concrete instance of claim C6: a two-volume run over `vol04` with
the identity chooser; the first capture fixes the selection `[4]` and
the second capture is handed exactly `[4]`. -/
theorem claim_C6_selection_chosen_once_witness :
    ∃ f0 tl,
      ([((none : Option (List Nat)), blackFrame 800 800),
        (some [4], blackFrame 800 800)] : List (Option (List Nat) × Frame))
        = (none, f0) :: tl
      ∧ capture_nii_3d_view vol04 (fun a => a) constRender 0 0 none (800, 800)
          = .ok (.withLabels f0 (show_available_labels vol04.uniqueLabels))
      ∧ ∀ e ∈ tl, e.1 = some (show_available_labels vol04.uniqueLabels) :=
  claim_C6_selection_chosen_once (fun a => a) constRender 0 0 (800, 800)
    vol04 [vol04]
    [(none, blackFrame 800 800), (some [4], blackFrame 800 800)] (some [4]) rfl

end TumorViz
